import Mathlib

/-!
Shallow embedding of the `akasa-data-engineer` repository: the field
validators (`src/utils/validators.py`), the CSV and XML ingestion
pipelines (`src/ingestion/csv_loader.py`, `src/ingestion/xml_loader.py`)
and the two KPI engines (`src/kpis/table_based_kpis.py`,
`src/kpis/memory_based_kpis.py`, `src/kpis/base_kpi.py`), together with
proofs about the claims of the specification.

Conventions of the embedding:
* Python scalar cell values are modelled by `PyVal`: a pandas missing
  value (`NaN`), the Python `None`, or a string.  `NaN` is truthy and
  stringifies to "nan"; `None` is falsy and stringifies to "None",
  exactly as in Python.
* SQL decimals and Python floats are modelled with exact rationals `ℚ`;
  an SQL aggregate that can be `NULL` is an `Option ℚ`.
* Databases are modelled as in-memory lists of rows; wall-clock
  timestamps (`calculated_at`, `updated_at`) are passed as opaque
  string parameters, since real time is outside the embedding.
* A sort whose tie order the source leaves unspecified (SQL `ORDER BY`,
  `DataFrame.sort_values`) is modelled with `List.mergeSort` on the
  comparator the source states.
-/

namespace Akasa

/-- A Python scalar as it appears in a DataFrame cell or an XML field:
a pandas missing value (`NaN`), the Python `None`, or a string. -/
inductive PyVal where
  | vNan : PyVal
  | vNone : PyVal
  | vStr : String → PyVal
deriving DecidableEq, Repr

/-- Python truthiness: `NaN` is truthy, `None` is falsy, a string is
truthy iff non-empty. -/
def pyTruthy : PyVal → Bool
  | .vNan => true
  | .vNone => false
  | .vStr s => !(s == "")

/-- Python `str()` of a scalar: `str(nan) = "nan"`, `str(None) = "None"`. -/
def pyStr : PyVal → String
  | .vNan => "nan"
  | .vNone => "None"
  | .vStr s => s

/-- Python `str.strip()` on a character list: drop whitespace from both
ends. -/
def pyStripList (l : List Char) : List Char :=
  ((l.dropWhile Char.isWhitespace).reverse.dropWhile Char.isWhitespace).reverse

/-- Python `str.strip()`. -/
def pyStrip (s : String) : String :=
  (pyStripList s.toList).asString

/-- Numeric value of a digit list (most significant first). -/
def digitsToNat (l : List Char) : Nat :=
  l.foldl (fun a c => 10 * a + (c.toNat - 48)) 0

/-- An exact decimal/rational amount: numerator over a positive
denominator.  Used for SQL `DECIMAL` columns and Python floats, so that
sums, means and comparisons are exact and computable (values produced by
the embedded code always go through the constructors below, which keep
the denominator positive). -/
structure Money where
  num : Int
  den : Nat
  den_pos : 0 < den

instance : DecidableEq Money := fun a b =>
  decidable_of_iff (a.num = b.num ∧ a.den = b.den) (by
    cases a; cases b; simp)

/-- The amount `i / 1`. -/
def Money.ofInt (i : Int) : Money := ⟨i, 1, Nat.one_pos⟩

/-- Exact addition of amounts. -/
def Money.add (a b : Money) : Money :=
  ⟨a.num * b.den + b.num * a.den, a.den * b.den, Nat.mul_pos a.den_pos b.den_pos⟩

/-- Exact sum of a list of amounts. -/
def moneySum (l : List Money) : Money :=
  l.foldr Money.add (Money.ofInt 0)

/-- Exact division of an amount by a positive count (used for AVG /
mean over a non-empty group; the `n = 0` branch is never reached by the
embedded code, which guards on non-emptiness first). -/
def Money.divNat (a : Money) (n : Nat) : Money :=
  if h : 0 < n then ⟨a.num, a.den * n, Nat.mul_pos a.den_pos h⟩ else a

/-- Value order on amounts, by cross multiplication. -/
def Money.leB (a b : Money) : Bool :=
  decide (a.num * (b.den : Int) ≤ b.num * (a.den : Int))

/-- Strict value order on amounts. -/
def Money.ltB (a b : Money) : Bool :=
  decide (a.num * (b.den : Int) < b.num * (a.den : Int))

/-- Python `float()` on a string: strip, optional sign, digits with an
optional fractional part, entire string consumed.  (Exponent notation
and the words inf/nan are not used by the repository's data and are not
modelled; they would parse in Python but fail here.) -/
def pyFloat (s : String) : Option Money :=
  let body : List Char → Option Money := fun cs =>
    let ip := cs.takeWhile Char.isDigit
    let r1 := cs.drop ip.length
    match r1 with
    | [] =>
      if ip.isEmpty then none else some (Money.ofInt (digitsToNat ip))
    | '.' :: r2 =>
      let fp := r2.takeWhile Char.isDigit
      let r3 := r2.drop fp.length
      if r3.isEmpty && !(ip.isEmpty && fp.isEmpty) then
        some ⟨(digitsToNat ip) * (10 : Int) ^ fp.length + digitsToNat fp,
              10 ^ fp.length, Nat.pos_pow_of_pos _ (by omega)⟩
      else none
    | _ => none
  match pyStripList s.toList with
  | '+' :: cs => body cs
  | '-' :: cs => (body cs).map (fun m => ⟨-m.num, m.den, m.den_pos⟩)
  | cs => body cs

/-- Python `int()` on a string: strip, optional sign, digits only. -/
def pyIntOfString (s : String) : Option Int :=
  let body : List Char → Option Int := fun cs =>
    if cs.isEmpty || !(cs.all Char.isDigit) then none else some (digitsToNat cs)
  match pyStripList s.toList with
  | '+' :: cs => body cs
  | '-' :: cs => (body cs).map (fun i => -i)
  | cs => body cs

/-- `float()` applied to an arbitrary scalar, as the numeric validators
do: `float(None)` raises (`none` here); `float(nan)` is NaN, whose
comparisons with 0 are all false, so for the validators below it acts
like a failed coercion. -/
def pyFloatVal : PyVal → Option Money
  | .vNan => none
  | .vNone => none
  | .vStr s => pyFloat s

/-- `DataValidator.validate_positive_number`: true iff `float(value) > 0`,
false when the coercion fails. -/
def validate_positive_number (value : PyVal) : Bool :=
  match pyFloatVal value with
  | some q => Money.ltB (Money.ofInt 0) q
  | none => false

/-- `DataValidator.validate_non_negative_number`: true iff
`float(value) >= 0`, false when the coercion fails. -/
def validate_non_negative_number (value : PyVal) : Bool :=
  match pyFloatVal value with
  | some q => Money.leB (Money.ofInt 0) q
  | none => false

/-- `DataValidator.validate_string`: falsy values fail; otherwise
`str(value).strip()` must have length within `[min_length, max_length]`. -/
def validate_string (value : PyVal) (min_length max_length : Nat) : Bool :=
  if !pyTruthy value then false
  else
    let s := pyStrip (pyStr value)
    decide (min_length ≤ s.length) && decide (s.length ≤ max_length)

/-- The characters `DataValidator.normalize_mobile_number` keeps:
digits and `+` (the regex `[^\d+]` is removed, so every `+` survives,
not only a leading one). -/
def keepMobileChar (c : Char) : Bool :=
  c.isDigit || c == '+'

/-- `DataValidator.normalize_mobile_number` on a string: empty input is
falsy and fails; otherwise strip, drop every character that is neither
a digit nor `+`, fail if nothing remains or fewer than 8 digits remain,
else return the cleaned string. -/
def normalize_mobile_number (mobile : String) : Option String :=
  if mobile == "" then none
  else if ((pyStrip mobile).toList.filter keepMobileChar).isEmpty then none
  else if ((((pyStrip mobile).toList.filter keepMobileChar).filter
      Char.isDigit).length < 8) then none
  else some ((pyStrip mobile).toList.filter keepMobileChar).asString

/-- `normalize_mobile_number` applied to a DataFrame cell or XML field:
falsy scalars (`None`, empty string) fail at the `if not mobile` guard,
`NaN` stringifies to "nan" and fails for having no digits. -/
def normalizeMobileVal (v : PyVal) : Option String :=
  if pyTruthy v then normalize_mobile_number (pyStr v) else none

/-- A parsed Python `datetime` (per-field, no timezone). -/
structure PyDateTime where
  year : Nat
  month : Nat
  day : Nat
  hour : Nat
  minute : Nat
  second : Nat
deriving DecidableEq, Repr

/-- One directive of a `strptime` format string. -/
inductive FmtItem where
  | year | month | day | hour | minute | second
  | lit : Char → FmtItem
deriving DecidableEq, Repr

/-- Maximum digits a numeric directive consumes (`%Y` up to 4, the
two-digit fields up to 2). -/
def fmtMaxDigits : FmtItem → Nat
  | .year => 4
  | _ => 2

/-- Store a parsed numeric field. -/
def setFmtField (d : PyDateTime) : FmtItem → Nat → PyDateTime
  | .year, v => { d with year := v }
  | .month, v => { d with month := v }
  | .day, v => { d with day := v }
  | .hour, v => { d with hour := v }
  | .minute, v => { d with minute := v }
  | .second, v => { d with second := v }
  | .lit _, _ => d

/-- Greedily take up to `n` leading digits (at least one). -/
def takeDigits (n : Nat) (cs : List Char) : Option (Nat × List Char) :=
  let ds := (cs.takeWhile Char.isDigit).take n
  if ds.isEmpty then none else some (digitsToNat ds, cs.drop ds.length)

/-- Run a format over the input, accumulating fields; the whole input
must be consumed (CPython `_strptime` rejects trailing characters). -/
def runFmt : List FmtItem → List Char → PyDateTime → Option PyDateTime
  | [], [], acc => some acc
  | [], _ :: _, _ => none
  | .lit c :: fs, x :: xs, acc => if x == c then runFmt fs xs acc else none
  | .lit _ :: _, [], _ => none
  | f :: fs, cs, acc =>
    match takeDigits (fmtMaxDigits f) cs with
    | some (v, rest) => runFmt fs rest (setFmtField acc f v)
    | none => none

/-- Gregorian leap year. -/
def isLeapYear (y : Nat) : Bool :=
  y % 4 == 0 && (!(y % 100 == 0) || y % 400 == 0)

/-- Days in a month, as the `datetime` constructor validates them. -/
def daysInMonth (y m : Nat) : Nat :=
  if m == 2 then (if isLeapYear y then 29 else 28)
  else if m == 4 || m == 6 || m == 9 || m == 11 then 30
  else 31

/-- The range checks `datetime.strptime` enforces (regex ranges plus the
`datetime` constructor: year 1..9999, valid month/day, time of day). -/
def validDateTime (d : PyDateTime) : Bool :=
  1 ≤ d.year && d.year ≤ 9999 &&
  1 ≤ d.month && d.month ≤ 12 &&
  1 ≤ d.day && d.day ≤ daysInMonth d.year d.month &&
  d.hour ≤ 23 && d.minute ≤ 59 && d.second ≤ 59

/-- `datetime.strptime` for the formats the repository uses: parse with
defaults 1900-01-01 00:00:00, then validate ranges. -/
def strptime (s : String) (f : List FmtItem) : Option PyDateTime :=
  match runFmt f s.toList ⟨1900, 1, 1, 0, 0, 0⟩ with
  | some d => if validDateTime d then some d else none
  | none => none

/-- `'%Y-%m-%dT%H:%M:%S'`. -/
def fmtIsoT : List FmtItem :=
  [.year, .lit '-', .month, .lit '-', .day, .lit 'T',
   .hour, .lit ':', .minute, .lit ':', .second]

/-- `'%Y-%m-%d %H:%M:%S'`. -/
def fmtIsoSpace : List FmtItem :=
  [.year, .lit '-', .month, .lit '-', .day, .lit ' ',
   .hour, .lit ':', .minute, .lit ':', .second]

/-- `'%Y-%m-%d'`. -/
def fmtYmd : List FmtItem :=
  [.year, .lit '-', .month, .lit '-', .day]

/-- `'%d-%m-%Y'`. -/
def fmtDmyDash : List FmtItem :=
  [.day, .lit '-', .month, .lit '-', .year]

/-- `'%d/%m/%Y'`. -/
def fmtDmySlash : List FmtItem :=
  [.day, .lit '/', .month, .lit '/', .year]

/-- The fixed fallback format list of `DataValidator.validate_datetime`,
in source order. -/
def pyDateFormats : List (List FmtItem) :=
  [fmtIsoT, fmtIsoSpace, fmtYmd, fmtDmyDash, fmtDmySlash]

/-- `DataValidator.validate_datetime`: falsy input fails; otherwise try
the explicit format if given, else the five fallback formats in order,
returning the first successful parse of the stripped string. -/
def validate_datetime (dt_string : PyVal) (format : Option (List FmtItem)) :
    Option PyDateTime :=
  if !pyTruthy dt_string then none
  else
    let s := pyStrip (pyStr dt_string)
    let fmts := match format with
      | some f => [f]
      | none => pyDateFormats
    fmts.findSome? (fun f => strptime s f)

/-! ## CSV ingestion pipeline (`src/ingestion/csv_loader.py`)

The pipeline is modelled from the parsed DataFrame on: the file-load
stage (`load_csv`) and the wall-clock `duration` field are I/O and are
outside the embedding.  A DataFrame row holds the four required columns
(the missing-columns branch of `validate_dataframe` cannot arise in this
typed model); a cell is a `PyVal` (`NaN` for a missing CSV value). -/

/-- One row of the customers DataFrame. -/
structure CsvRow where
  customer_id : PyVal
  customer_name : PyVal
  mobile_number : PyVal
  region : PyVal
deriving DecidableEq, Repr

/-- Python list repr of a list of strings, `["a", "b"] ↦ "['a', 'b']"`. -/
def pyListRepr (l : List String) : String :=
  "[" ++ String.intercalate ", " (l.map fun s => "\x27" ++ s ++ "\x27") ++ "]"

/-- The per-row field checks of `CSVLoader.validate_dataframe`, in
source order, producing the row's error fragments. -/
def validateCsvRow (r : CsvRow) : List String :=
  let cid := pyStrip (pyStr r.customer_id)
  (if cid == "" || 25 < cid.length then
    ["Invalid customer_id: " ++ cid ++ " (must be 1-25 characters)"] else []) ++
  (if !validate_string r.customer_name 2 255 then
    ["Invalid customer_name: " ++ pyStr r.customer_name] else []) ++
  (if (normalizeMobileVal r.mobile_number).isNone then
    ["Invalid mobile_number: " ++ pyStr r.mobile_number ++ " (must be 8-15 digits)"]
   else []) ++
  (if !validate_string r.region 2 255 then
    ["Invalid region: " ++ pyStr r.region] else [])

/-- `CSVLoader.validate_dataframe`: reject an empty frame, otherwise
walk every row accumulating one `"Row (idx+2): ..."` message per
invalid row (idx is 0-based and the CSV header occupies line 1). -/
def validate_dataframe (df : List CsvRow) : Bool × List String :=
  if df.isEmpty then (false, ["CSV file is empty"])
  else
    let errs := df.enum.filterMap fun p =>
      let es := validateCsvRow p.2
      if es.isEmpty then none
      else some ("Row " ++ toString (p.1 + 2) ++ ": " ++ String.intercalate ", " es)
    (errs.isEmpty, errs)

/-- pandas `.str.strip()` on a cell of an object column: strings are
stripped, missing values stay missing. -/
def stripCell : PyVal → PyVal
  | .vStr s => .vStr (pyStrip s)
  | v => v

/-- A missing cell in the pandas sense (`dropna` drops `NaN` and
`None`; it keeps empty strings). -/
def isMissing : PyVal → Bool
  | .vNan => true
  | .vNone => true
  | .vStr _ => false

/-- A Python `Optional[str]` result written back into a column: `None`
becomes a missing value. -/
def cellOfOpt : Option String → PyVal
  | some s => .vStr s
  | none => .vNone

/-- Keep-first de-duplication by key with an accumulator of keys already
seen.  This is literally the `seen_ids` loop of `XMLLoader.clean_orders`;
`DataFrame.drop_duplicates(subset=..., keep='first')` computes the same
function. -/
def dedupSeen {α β : Type} [DecidableEq β] (key : α → β) :
    List β → List α → List α
  | _, [] => []
  | seen, x :: xs =>
    if key x ∈ seen then dedupSeen key seen xs
    else x :: dedupSeen key (key x :: seen) xs

/-- Stages 1–3 of `CSVLoader.clean_dataframe` in source order: strip
every object column, re-coerce `customer_id` through
`astype(str).str.strip()` (a missing id becomes the string "nan"), and
normalize the mobile numbers (a failed normalization writes a missing
value back into the column). -/
def normalizeStage (df : List CsvRow) : List CsvRow :=
  ((df.map fun r =>
    (⟨stripCell r.customer_id, stripCell r.customer_name,
      stripCell r.mobile_number, stripCell r.region⟩ : CsvRow)).map fun r =>
    { r with customer_id := .vStr (pyStrip (pyStr r.customer_id)) }).map fun r =>
    { r with mobile_number := cellOfOpt (normalizeMobileVal r.mobile_number) }

/-- `CSVLoader.clean_dataframe`: normalize, then de-duplicate by
`customer_id` keeping the first occurrence (`drop_duplicates`), and only
after that drop rows with a missing required field (`dropna`). -/
def clean_dataframe (df : List CsvRow) : List CsvRow :=
  (dedupSeen (fun r => r.customer_id) [] (normalizeStage df)).filter fun r =>
    !isMissing r.customer_id && !isMissing r.customer_name &&
    !isMissing r.mobile_number && !isMissing r.region

/-- A row of the `customers` table as the insert statement writes it:
`customer_id` goes through `str()`, the other columns are the raw cell
values.  (`created_at`/`updated_at` are store-managed timestamps,
outside the embedding.) -/
structure DbCustomer where
  customer_id : String
  customer_name : PyVal
  mobile_number : PyVal
  region : PyVal
deriving DecidableEq, Repr

/-- `INSERT ... ON DUPLICATE KEY UPDATE` for one customer row: on a
`customer_id` collision only `customer_name` and `region` are
overwritten (identity and `mobile_number` are preserved). -/
def upsertCustomer (tbl : List DbCustomer) (r : DbCustomer) : List DbCustomer :=
  if tbl.any fun t => t.customer_id == r.customer_id then
    tbl.map fun t =>
      if t.customer_id == r.customer_id then
        { t with customer_name := r.customer_name, region := r.region }
      else t
  else tbl ++ [r]

/-- The ingestion mode. -/
inductive LoadMode where
  | replace
  | append
deriving DecidableEq, Repr

/-- `CSVLoader.load_to_database`: in replace mode first delete every
existing row, then batch-upsert all cleaned rows. -/
def load_to_database (df : List CsvRow) (mode : LoadMode)
    (tbl : List DbCustomer) : List DbCustomer :=
  let base := match mode with
    | .replace => []
    | .append => tbl
  (df.map fun r =>
    (⟨pyStr r.customer_id, r.customer_name, r.mobile_number, r.region⟩ :
      DbCustomer)).foldl upsertCustomer base

/-- The result dictionary of `process_csv` / `process_xml` (the
wall-clock `duration` field is outside the embedding). -/
structure PipelineResult where
  success : Bool
  records_loaded : Nat
  errors : List String
deriving DecidableEq, Repr

/-- `CSVLoader.process_csv` from the parsed frame on: validate, abort
with all accumulated messages on any validation error (the store is
untouched), otherwise clean and load. -/
def process_csv (df : List CsvRow) (mode : LoadMode)
    (tbl : List DbCustomer) : PipelineResult × List DbCustomer :=
  if (validate_dataframe df).1 then
    (⟨true, (clean_dataframe df).length, []⟩,
     load_to_database (clean_dataframe df) mode tbl)
  else
    (⟨false, 0, (validate_dataframe df).2⟩, tbl)

/-! ## XML ingestion pipeline (`src/ingestion/xml_loader.py`) -/

/-- One raw `order` element as `load_xml` parses it: each child's text
content, or `None` for an absent child. -/
structure RawOrder where
  order_id : PyVal
  mobile_number : PyVal
  order_date_time : PyVal
  sku_id : PyVal
  sku_count : PyVal
  total_amount : PyVal
deriving DecidableEq, Repr

/-- The required fields in source order, with their raw values. -/
def rawOrderFields (o : RawOrder) : List (String × PyVal) :=
  [("order_id", o.order_id), ("mobile_number", o.mobile_number),
   ("order_date_time", o.order_date_time), ("sku_id", o.sku_id),
   ("sku_count", o.sku_count), ("total_amount", o.total_amount)]

/-- `int()` applied to a field value: `int(None)` raises. -/
def pyIntVal : PyVal → Option Int
  | .vStr s => pyIntOfString s
  | _ => none

/-- The per-row checks of `XMLLoader.validate_orders`: a row with falsy
required fields reports only the missing-fields message; otherwise every
field check runs and contributes its own fragment. -/
def validateOrderRow (o : RawOrder) : List String :=
  let missing := (rawOrderFields o).filterMap fun p =>
    if !pyTruthy p.2 then some p.1 else none
  if !missing.isEmpty then
    ["Missing fields: " ++ pyListRepr missing]
  else
    let oid := pyStrip (pyStr o.order_id)
    (if oid == "" || 25 < oid.length then
      ["Invalid order_id: " ++ oid ++ " (must be 1-25 characters)"] else []) ++
    (if (normalizeMobileVal o.mobile_number).isNone then
      ["Invalid mobile_number: " ++ pyStr o.mobile_number ++
       " (must be 8-15 digits)"] else []) ++
    (if (validate_datetime o.order_date_time none).isNone then
      ["Invalid order_date_time: " ++ pyStr o.order_date_time] else []) ++
    (if !validate_string o.sku_id 1 255 then
      ["Invalid sku_id: " ++ pyStr o.sku_id] else []) ++
    (if !validate_positive_number o.sku_count then
      ["Invalid sku_count: " ++ pyStr o.sku_count] else []) ++
    (if !validate_non_negative_number o.total_amount then
      ["Invalid total_amount: " ++ pyStr o.total_amount] else [])

/-- `XMLLoader.validate_orders`: reject an empty order list, otherwise
accumulate one `"Order (idx+1): ..."` message per invalid row (1-based,
no header offset). -/
def validate_orders (orders : List RawOrder) : Bool × List String :=
  if orders.isEmpty then (false, ["No orders found in XML file"])
  else
    let errs := orders.enum.filterMap fun p =>
      let es := validateOrderRow p.2
      if es.isEmpty then none
      else some ("Order " ++ toString (p.1 + 1) ++ ": " ++
        String.intercalate ", " es)
    (errs.isEmpty, errs)

/-- A cleaned order row, as inserted into the `orders` table. -/
structure CleanOrder where
  order_id : String
  mobile_number : String
  order_date_time : PyDateTime
  sku_id : String
  sku_count : Int
  total_amount : Money
deriving DecidableEq

/-- Cleaning of one order in `XMLLoader.clean_orders`: every coercion
failure (normalization to `None`, unparseable date, `None.strip()`,
`int()`/`float()` raising) makes the row be skipped, either through the
`all(v is not None)` guard or the surrounding `except`. -/
def cleanOrder (o : RawOrder) : Option CleanOrder :=
  match o.sku_id with
  | .vStr sk =>
    match normalizeMobileVal o.mobile_number,
          validate_datetime o.order_date_time none,
          pyIntVal o.sku_count, pyFloatVal o.total_amount with
    | some m, some d, some c, some a =>
      some ⟨pyStrip (pyStr o.order_id), m, d, pyStrip sk, c, a⟩
    | _, _, _, _ => none
  | _ => none

/-- `XMLLoader.clean_orders`: clean every row, dropping the invalid
ones, then de-duplicate by `order_id` keeping the first occurrence
(the `seen_ids` loop). -/
def clean_orders (orders : List RawOrder) : List CleanOrder :=
  dedupSeen (fun c => c.order_id) [] (orders.filterMap cleanOrder)

/-- `INSERT ... ON DUPLICATE KEY UPDATE` for one order row: on an
`order_id` collision only `sku_count` and `total_amount` are
overwritten. -/
def upsertOrder (tbl : List CleanOrder) (r : CleanOrder) : List CleanOrder :=
  if tbl.any fun t => t.order_id == r.order_id then
    tbl.map fun t =>
      if t.order_id == r.order_id then
        { t with sku_count := r.sku_count, total_amount := r.total_amount }
      else t
  else tbl ++ [r]

/-- `XMLLoader.load_to_database`. -/
def load_orders_to_database (orders : List CleanOrder) (mode : LoadMode)
    (tbl : List CleanOrder) : List CleanOrder :=
  let base := match mode with
    | .replace => []
    | .append => tbl
  orders.foldl upsertOrder base

/-- `XMLLoader.process_xml` from the parsed order list on. -/
def process_xml (orders : List RawOrder) (mode : LoadMode)
    (tbl : List CleanOrder) : PipelineResult × List CleanOrder :=
  if (validate_orders orders).1 then
    (⟨true, (clean_orders orders).length, []⟩,
     load_orders_to_database (clean_orders orders) mode tbl)
  else
    (⟨false, 0, (validate_orders orders).2⟩, tbl)

/-! ## KPI engines (`src/kpis/table_based_kpis.py`,
`src/kpis/memory_based_kpis.py`)

Both engines read the same store state: a `customers` table and an
`orders` table.  A stored customer row produced by the ingestion
pipeline has all four fields present, so the KPI layer models it with
plain strings.  The relational `GROUP BY` enumerates each distinct key
once (its order before `ORDER BY` is unspecified; the model picks
first-occurrence order), while `DataFrame.groupby(..., sort=True)`
enumerates keys in ascending key order.  Both `ORDER BY` and
`DataFrame.sort_values` leave tie order unspecified; the model uses
`List.insertionSort` with the comparator each source states. -/

/-- A stored customer row as the KPI queries see it. -/
structure Customer where
  customer_id : String
  customer_name : String
  mobile_number : String
  region : String
deriving DecidableEq, Repr

/-- Code-point comparison of strings (Python string order, used by
pandas when sorting group keys). -/
def charListLe : List Char → List Char → Bool
  | [], _ => true
  | _ :: _, [] => false
  | a :: as, b :: bs =>
    if a.toNat < b.toNat then true
    else if b.toNat < a.toNat then false
    else charListLe as bs

/-- `≤` on strings by code points. -/
def strLeB (a b : String) : Bool := charListLe a.toList b.toList

/-- Ascending order on pandas group-key tuples. -/
def strPairLe (a b : String × String) : Bool :=
  if a.1 == b.1 then strLeB a.2 b.2 else strLeB a.1 b.1

/-- The inner join of customers to orders on `mobile_number` as the SQL
engine's queries perform it: one row per matching (customer, order)
pair. -/
def sqlJoinRows (cs : List Customer) (os : List CleanOrder) :
    List (Customer × CleanOrder) :=
  (cs.map fun c =>
    (os.filter fun o => o.mobile_number == c.mobile_number).map
      fun o => (c, o)).flatten

/-- `customers_df.merge(orders_df, on='mobile_number', how='inner')`:
left rows in order, each paired with its matching right rows in order —
the same row sequence as the SQL inner join. -/
def memMergedRows (cs : List Customer) (os : List CleanOrder) :
    List (Customer × CleanOrder) :=
  (cs.map fun c =>
    (os.filter fun o => o.mobile_number == c.mobile_number).map
      fun o => (c, o)).flatten

/-- An output row of the Repeat Customers KPI. -/
structure RepeatRow where
  customer_id : String
  customer_name : String
  order_count : Nat
  total_spent : Money
deriving DecidableEq

/-- The grouping key `(customer_id, customer_name)` of both engines. -/
def repeatKey (p : Customer × CleanOrder) : String × String :=
  (p.1.customer_id, p.1.customer_name)

/-- Aggregation of one repeat-customers group: `COUNT(o.order_id)`
(`order_id` is never null, so this is the group size; pandas
`'order_id': 'count'` likewise) and `SUM(o.total_amount)`. -/
def aggRepeat (rows : List (Customer × CleanOrder)) (k : String × String) :
    RepeatRow :=
  let g := rows.filter fun p => repeatKey p == k
  ⟨k.1, k.2, g.length, moneySum (g.map fun p => p.2.total_amount)⟩

/-- `ORDER BY order_count DESC, total_spent DESC`, which is also the
memory engine's `sort_values(by=['order_count', 'total_spent'],
ascending=[False, False])`. -/
def repeatLe (a b : RepeatRow) : Bool :=
  decide (b.order_count < a.order_count) ||
  (a.order_count == b.order_count && Money.leB b.total_spent a.total_spent)

/-- `RepeatCustomersKPI.calculate`'s query: inner join, group by
`(customer_id, customer_name)`, `HAVING COUNT(o.order_id) > 1`, order by
`(order_count DESC, total_spent DESC)`. -/
def sqlRepeatCustomers (cs : List Customer) (os : List CleanOrder) :
    List RepeatRow :=
  let rows := sqlJoinRows cs os
  let keys := dedupSeen (fun k => k) [] (rows.map repeatKey)
  ((keys.map (aggRepeat rows)).filter fun r =>
    decide (1 < r.order_count)).insertionSort fun a b => repeatLe a b = true

/-- `MemoryBasedKPIEngine.calculate_repeat_customers`: merge, group by
`(customer_id, customer_name)` with keys in ascending order, aggregate
count/sum, keep `order_count > 1`, sort by `(order_count, total_spent)`
descending. -/
def memRepeatCustomers (cs : List Customer) (os : List CleanOrder) :
    List RepeatRow :=
  let rows := memMergedRows cs os
  let keys := (dedupSeen (fun k => k) [] (rows.map repeatKey)).insertionSort
    fun a b => strPairLe a b = true
  ((keys.map (aggRepeat rows)).filter fun r =>
    decide (1 < r.order_count)).insertionSort fun a b => repeatLe a b = true

/-- An output row of the SQL Regional Revenue KPI.  `SUM` and `AVG`
over a group whose joined order columns are all `NULL` are `NULL`, hence
the `Option`. -/
structure SqlRegionalRow where
  region : String
  customer_count : Nat
  total_orders : Nat
  total_revenue : Option Money
  avg_order_value : Option Money
deriving DecidableEq

/-- An output row of the memory Regional Revenue KPI: `fillna(0)` (and
pandas' all-NaN group sum being 0) make the aggregates plain numbers. -/
structure MemRegionalRow where
  region : String
  customer_count : Nat
  total_orders : Nat
  total_revenue : Money
  avg_order_value : Money
deriving DecidableEq

/-- The left join of customers to orders on `mobile_number`: customers
without a match keep one row with null order columns. -/
def sqlLeftJoinRows (cs : List Customer) (os : List CleanOrder) :
    List (Customer × Option CleanOrder) :=
  (cs.map fun c =>
    let ms := os.filter fun o => o.mobile_number == c.mobile_number
    if ms.isEmpty then [(c, none)] else ms.map fun o => (c, some o)).flatten

/-- `customers_df.merge(orders_df, on='mobile_number', how='left')`:
the same row sequence as the SQL left join. -/
def memLeftMergedRows (cs : List Customer) (os : List CleanOrder) :
    List (Customer × Option CleanOrder) :=
  (cs.map fun c =>
    let ms := os.filter fun o => o.mobile_number == c.mobile_number
    if ms.isEmpty then [(c, none)] else ms.map fun o => (c, some o)).flatten

/-- The non-null order amounts of a regional group. -/
def regionAmounts (g : List (Customer × Option CleanOrder)) : List Money :=
  g.filterMap fun p => p.2.map fun o => o.total_amount

/-- One group of `RegionalRevenueKPI.calculate`'s query:
`COUNT(DISTINCT c.customer_id)`, `COUNT(o.order_id)` (nulls not
counted), `SUM(o.total_amount)` and `AVG(o.total_amount)` (both `NULL`
when the group has no order rows). -/
def sqlAggRegion (rows : List (Customer × Option CleanOrder)) (r : String) :
    SqlRegionalRow :=
  let g := rows.filter fun p => p.1.region == r
  let amounts := regionAmounts g
  ⟨r,
   (dedupSeen (fun k => k) [] (g.map fun p => p.1.customer_id)).length,
   (g.filterMap fun p => p.2).length,
   if amounts.isEmpty then none else some (moneySum amounts),
   if amounts.isEmpty then none
   else some ((moneySum amounts).divNat amounts.length)⟩

/-- One group of `calculate_regional_revenue` (memory): `nunique` of
`customer_id`, `count` of `order_id` (NaN skipped), `sum` of
`total_amount` (an all-NaN group sums to 0, and `fillna(0)` follows) and
`mean` of `total_amount` (`NaN` for an empty group, filled with 0). -/
def memAggRegion (rows : List (Customer × Option CleanOrder)) (r : String) :
    MemRegionalRow :=
  let g := rows.filter fun p => p.1.region == r
  let amounts := regionAmounts g
  ⟨r,
   (dedupSeen (fun k => k) [] (g.map fun p => p.1.customer_id)).length,
   (g.filterMap fun p => p.2).length,
   moneySum amounts,
   if amounts.isEmpty then Money.ofInt 0
   else (moneySum amounts).divNat amounts.length⟩

/-- Order on nullable amounts: MySQL sorts `NULL` below every value. -/
def optMoneyLe : Option Money → Option Money → Bool
  | none, _ => true
  | some _, none => false
  | some a, some b => Money.leB a b

/-- `ORDER BY total_revenue DESC` of the SQL regional query (`NULL`
sorts last in descending order). -/
def sqlRegionalLe (a b : SqlRegionalRow) : Bool :=
  optMoneyLe b.total_revenue a.total_revenue

/-- `sort_values('total_revenue', ascending=False)` of the memory
regional computation. -/
def memRegionalLe (a b : MemRegionalRow) : Bool :=
  Money.leB b.total_revenue a.total_revenue

/-- `RegionalRevenueKPI.calculate`'s query: left join, group by region,
order by total revenue descending. -/
def sqlRegionalRevenue (cs : List Customer) (os : List CleanOrder) :
    List SqlRegionalRow :=
  let rows := sqlLeftJoinRows cs os
  let keys := dedupSeen (fun k => k) [] (rows.map fun p => p.1.region)
  (keys.map (sqlAggRegion rows)).insertionSort fun a b => sqlRegionalLe a b = true

/-- `MemoryBasedKPIEngine.calculate_regional_revenue`: left merge, group
by region (keys ascending), aggregate, fill the missing aggregates of
orderless regions with 0, sort by total revenue descending. -/
def memRegionalRevenue (cs : List Customer) (os : List CleanOrder) :
    List MemRegionalRow :=
  let rows := memLeftMergedRows cs os
  let keys := (dedupSeen (fun k => k) [] (rows.map fun p => p.1.region)).insertionSort
    fun a b => strLeB a b = true
  (keys.map (memAggRegion rows)).insertionSort fun a b => memRegionalLe a b = true

/-! ## Result envelopes (`src/kpis/base_kpi.py` and the engines'
dispatch).

An envelope is the Python result dictionary: an association list in
insertion order.  `calculated_at` is wall-clock time, passed in as an
opaque string. -/

/-- A JSON-like Python value inside an envelope. -/
inductive JValue where
  | jstr : String → JValue
  | jnat : Nat → JValue
  | jmoney : Money → JValue
  | jbool : Bool → JValue
  | jnull : JValue
  | jarr : List JValue → JValue
  | jobj : List (String × JValue) → JValue

/-- `BaseKPI._format_result`: the base dictionary in insertion order,
then `result.update(metadata)` which appends the (fresh) metadata keys.
Note: no `method` tag and no nested `metadata` key. -/
def tableFormatResult (name desc : String) (data : JValue)
    (metadata : List (String × JValue)) (now : String) :
    List (String × JValue) :=
  [("kpi_name", .jstr name), ("description", .jstr desc), ("data", data),
   ("calculated_at", .jstr now), ("success", .jbool true)] ++ metadata

/-- `BaseKPI._format_error`. -/
def tableFormatError (name desc err now : String) : List (String × JValue) :=
  [("kpi_name", .jstr name), ("description", .jstr desc), ("data", .jnull),
   ("calculated_at", .jstr now), ("success", .jbool false),
   ("error", .jstr err)]

/-- A repeat-customers data row as a dictionary. -/
def repeatRowJ (r : RepeatRow) : JValue :=
  .jobj [("customer_id", .jstr r.customer_id),
         ("customer_name", .jstr r.customer_name),
         ("order_count", .jnat r.order_count),
         ("total_spent", .jmoney r.total_spent)]

/-- The metadata block both engines compute for Repeat Customers from
their result rows. -/
def repeatMetadata (rows : List RepeatRow) : List (String × JValue) :=
  [("total_repeat_customers", .jnat rows.length),
   ("total_orders", .jnat (rows.map RepeatRow.order_count).sum),
   ("total_revenue", .jmoney (moneySum (rows.map RepeatRow.total_spent)))]

/-- The success envelope of `RepeatCustomersKPI.calculate` (table
engine). -/
def tableRepeatEnvelope (cs : List Customer) (os : List CleanOrder)
    (now : String) : List (String × JValue) :=
  tableFormatResult "Repeat Customers"
    "Customers who have placed more than one order"
    (.jarr ((sqlRepeatCustomers cs os).map repeatRowJ))
    (repeatMetadata (sqlRepeatCustomers cs os)) now

/-- The success envelope of `calculate_repeat_customers` (memory
engine), built literally in the source's key order: nested `metadata`,
a `method` tag, and no `description`. -/
def memRepeatEnvelope (cs : List Customer) (os : List CleanOrder)
    (now : String) : List (String × JValue) :=
  [("kpi_name", .jstr "Repeat Customers"),
   ("data", .jarr ((memRepeatCustomers cs os).map repeatRowJ)),
   ("metadata", .jobj (repeatMetadata (memRepeatCustomers cs os))),
   ("calculated_at", .jstr now),
   ("success", .jbool true),
   ("method", .jstr "memory")]

/-! ## Table-engine dispatch (`TableBasedKPIEngine`).

Each `calculate` runs its store query inside `try/except`; the store
interaction is modelled as an effect parameter: per KPI key, either the
query's `(data, metadata)` or a raised exception message. -/

/-- The registry keys of `TableBasedKPIEngine.__init__`, in insertion
order. -/
def kpiNames : List String :=
  ["repeat_customers", "monthly_trends", "regional_revenue", "top_customers"]

/-- The display name and description each registry entry is constructed
with. -/
def kpiTitle : String → String × String
  | "repeat_customers" =>
    ("Repeat Customers", "Customers who have placed more than one order")
  | "monthly_trends" =>
    ("Monthly Order Trends", "Orders and revenue aggregated by month")
  | "regional_revenue" =>
    ("Regional Revenue", "Total revenue by customer region")
  | _ =>
    ("Top Customers (Last 30 Days)",
     "Top 10 customers by spending in the last 30 days")

/-- What one KPI's store computation yields: its `(data, metadata)`, or
the message of a raised exception. -/
def KpiOutcome : Type := Except String (JValue × List (String × JValue))

/-- One `BaseKPI.calculate`: format the result, or catch the exception
and downgrade it to an error envelope. -/
def calcOneKpi (k : String) (oc : KpiOutcome) (now : String) :
    List (String × JValue) :=
  match oc with
  | .ok (d, md) => tableFormatResult (kpiTitle k).1 (kpiTitle k).2 d md now
  | .error e => tableFormatError (kpiTitle k).1 (kpiTitle k).2 e now

/-- `TableBasedKPIEngine.calculate_kpi`: unknown names get a bare
failure dictionary without consulting the store. -/
def calculate_kpi (name : String) (oc : String → KpiOutcome) (now : String) :
    List (String × JValue) :=
  if name ∈ kpiNames then calcOneKpi name (oc name) now
  else [("success", .jbool false),
        ("error", .jstr ("Unknown KPI: " ++ name ++ ". Available: " ++
          pyListRepr kpiNames))]

/-- `TableBasedKPIEngine.calculate_all_kpis`: run every registered KPI
unconditionally, collecting each envelope under its key. -/
def calculate_all_kpis (oc : String → KpiOutcome) (now : String) :
    List (String × List (String × JValue)) :=
  kpiNames.map fun k => (k, calcOneKpi k (oc k) now)

/-! ## Order lemmas for the sort comparators -/

theorem Money.leB_total (a b : Money) : a.leB b = true ∨ b.leB a = true := by
  simp only [Money.leB, decide_eq_true_eq]
  exact Int.le_total _ _

theorem Money.leB_trans {a b c : Money} (h1 : a.leB b = true)
    (h2 : b.leB c = true) : a.leB c = true := by
  simp only [Money.leB, decide_eq_true_eq] at h1 h2 ⊢
  have hb : (0 : Int) < b.den := by exact_mod_cast b.den_pos
  have hcn : (0 : Int) ≤ c.den := Int.ofNat_nonneg _
  have han : (0 : Int) ≤ a.den := Int.ofNat_nonneg _
  have k1 := mul_le_mul_of_nonneg_right h1 hcn
  have k2 := mul_le_mul_of_nonneg_right h2 han
  have key : a.num * c.den * b.den ≤ c.num * a.den * b.den := by nlinarith
  exact le_of_mul_le_mul_right key hb

theorem optMoneyLe_total (a b : Option Money) :
    optMoneyLe a b = true ∨ optMoneyLe b a = true := by
  cases a with
  | none => left; rfl
  | some x =>
    cases b with
    | none => right; rfl
    | some y => exact Money.leB_total x y

theorem optMoneyLe_trans {a b c : Option Money} (h1 : optMoneyLe a b = true)
    (h2 : optMoneyLe b c = true) : optMoneyLe a c = true := by
  cases a with
  | none => rfl
  | some x =>
    cases b with
    | none => simp [optMoneyLe] at h1
    | some y =>
      cases c with
      | none => simp [optMoneyLe] at h2
      | some z => exact Money.leB_trans h1 h2

instance : IsTotal RepeatRow fun a b => repeatLe a b = true := by
  constructor
  intro a b
  simp only [repeatLe, Bool.or_eq_true, Bool.and_eq_true, beq_iff_eq,
    decide_eq_true_eq]
  rcases Nat.lt_trichotomy a.order_count b.order_count with h | h | h
  · right; left; exact h
  · rcases Money.leB_total b.total_spent a.total_spent with hm | hm
    · left; right; exact ⟨h, hm⟩
    · right; right; exact ⟨h.symm, hm⟩
  · left; left; exact h

instance : IsTrans RepeatRow fun a b => repeatLe a b = true := by
  constructor
  intro a b c h1 h2
  simp only [repeatLe, Bool.or_eq_true, Bool.and_eq_true, beq_iff_eq,
    decide_eq_true_eq] at h1 h2 ⊢
  rcases h1 with h1 | ⟨h1e, h1m⟩
  · rcases h2 with h2 | ⟨h2e, h2m⟩
    · left; omega
    · left; omega
  · rcases h2 with h2 | ⟨h2e, h2m⟩
    · left; omega
    · right; exact ⟨by omega, Money.leB_trans h2m h1m⟩

instance : IsTotal SqlRegionalRow fun a b => sqlRegionalLe a b = true := by
  constructor
  intro a b
  simp only [sqlRegionalLe]
  exact optMoneyLe_total b.total_revenue a.total_revenue

instance : IsTrans SqlRegionalRow fun a b => sqlRegionalLe a b = true := by
  constructor
  intro a b c h1 h2
  simp only [sqlRegionalLe] at h1 h2 ⊢
  exact optMoneyLe_trans h2 h1

instance : IsTotal MemRegionalRow fun a b => memRegionalLe a b = true := by
  constructor
  intro a b
  simp only [memRegionalLe]
  exact Money.leB_total b.total_revenue a.total_revenue

instance : IsTrans MemRegionalRow fun a b => memRegionalLe a b = true := by
  constructor
  intro a b c h1 h2
  simp only [memRegionalLe] at h1 h2 ⊢
  exact Money.leB_trans h2 h1

/-! ## Claim C1: the two repeat-customer computations agree -/

/-- Shared between the equivalence and envelope claims: both engines
produce the same multiset of repeat-customer rows. -/
theorem repeatCustomers_perm (cs : List Customer) (os : List CleanOrder) :
    (sqlRepeatCustomers cs os).Perm (memRepeatCustomers cs os) := by
  unfold sqlRepeatCustomers memRepeatCustomers
  have hrows : sqlJoinRows cs os = memMergedRows cs os := rfl
  rw [hrows]
  have hkeys : (dedupSeen (fun k => k) []
      ((memMergedRows cs os).map repeatKey)).Perm
      ((dedupSeen (fun k => k) []
        ((memMergedRows cs os).map repeatKey)).insertionSort
          fun a b => strPairLe a b = true) :=
    (List.perm_insertionSort _ _).symm
  exact ((List.perm_insertionSort _ _).trans
    ((hkeys.map _).filter _)).trans (List.perm_insertionSort _ _).symm

/-- C1: over any stored dataset (stored rows are non-null by
construction of the ingestion pipeline), the table engine's
`calculate_kpi('repeat_customers')` query and the memory engine's
`calculate_repeat_customers` produce the same multiset of
`(customer_id, customer_name, order_count, total_spent)` rows — in
particular the same set of `(customer_id, order_count, total_spent)`
triples with identical sums — and both outputs are sorted by
`(order_count, total_spent)` descending, so row order can differ only
between rows whose tie-break values compare equal. -/
theorem repeat_customers_engines_agree (cs : List Customer)
    (os : List CleanOrder) :
    (sqlRepeatCustomers cs os).Perm (memRepeatCustomers cs os) ∧
    List.Sorted (fun a b => repeatLe a b = true) (sqlRepeatCustomers cs os) ∧
    List.Sorted (fun a b => repeatLe a b = true) (memRepeatCustomers cs os) := by
  refine ⟨repeatCustomers_perm cs os, ?_, ?_⟩
  · exact List.sorted_insertionSort _ _
  · exact List.sorted_insertionSort _ _

/-! ## Lemmas about keep-first de-duplication and the left join -/

theorem mem_dedupSeen_imp {α β : Type} [DecidableEq β] {key : α → β}
    {x : α} : ∀ {l : List α} {seen : List β},
    x ∈ dedupSeen key seen l → x ∈ l ∧ key x ∉ seen := by
  intro l
  induction l with
  | nil => intro seen h; simp [dedupSeen] at h
  | cons a as ih =>
    intro seen h
    simp only [dedupSeen] at h
    by_cases hs : key a ∈ seen
    · simp only [hs, if_pos] at h
      have := ih h
      exact ⟨List.mem_cons_of_mem _ this.1, this.2⟩
    · simp only [hs, if_neg, not_false_iff] at h
      rcases List.mem_cons.mp h with rfl | h2
      · exact ⟨List.mem_cons_self _ _, hs⟩
      · have := ih h2
        have hseen : key x ∉ seen := fun hk =>
          this.2 (List.mem_cons_of_mem _ hk)
        exact ⟨List.mem_cons_of_mem _ this.1, hseen⟩

theorem mem_dedupSeen_id {β : Type} [DecidableEq β] {a : β} :
    ∀ {l seen : List β},
    a ∈ dedupSeen (fun k => k) seen l ↔ a ∈ l ∧ a ∉ seen := by
  intro l
  induction l with
  | nil => intro seen; simp [dedupSeen]
  | cons b bs ih =>
    intro seen
    simp only [dedupSeen]
    by_cases hs : b ∈ seen
    · simp only [hs, if_pos]
      rw [ih]
      constructor
      · rintro ⟨h1, h2⟩
        exact ⟨List.mem_cons_of_mem _ h1, h2⟩
      · rintro ⟨h1, h2⟩
        rcases List.mem_cons.mp h1 with rfl | h1
        · exact absurd hs h2
        · exact ⟨h1, h2⟩
    · rw [if_neg hs]
      constructor
      · intro h
        rcases List.mem_cons.mp h with rfl | h
        · exact ⟨List.mem_cons_self _ _, hs⟩
        · rw [ih] at h
          rcases h with ⟨h1, h2⟩
          rw [List.mem_cons, not_or] at h2
          exact ⟨List.mem_cons_of_mem _ h1, h2.2⟩
      · rintro ⟨h1, h2⟩
        rcases List.mem_cons.mp h1 with rfl | h1
        · exact List.mem_cons_self _ _
        · by_cases hab : a = b
          · subst hab; exact List.mem_cons_self _ _
          · apply List.mem_cons_of_mem
            rw [ih]
            refine ⟨h1, ?_⟩
            rw [List.mem_cons, not_or]
            exact ⟨hab, h2⟩

theorem dedupSeen_filter_key {α β : Type} [DecidableEq β] (key : α → β)
    (k : β) (r : α) (hk : key r = k) :
    ∀ (pre : List α) (suf : List α) (seen : List β), k ∉ seen →
    (∀ p ∈ pre, key p ≠ k) →
    (dedupSeen key seen (pre ++ r :: suf)).filter (fun x => key x == k)
      = [r] := by
  intro pre
  induction pre with
  | nil =>
    intro suf seen hseen _
    simp only [List.nil_append, dedupSeen, hk, if_neg hseen]
    rw [List.filter_cons]
    simp only [hk, beq_self_eq_true, if_pos]
    have hnil : (dedupSeen key (k :: seen) suf).filter
        (fun x => key x == k) = [] := by
      rw [List.filter_eq_nil_iff]
      intro x hx
      have := (mem_dedupSeen_imp hx).2
      simp only [beq_iff_eq]
      intro hxk
      exact this (by rw [hxk]; exact List.mem_cons_self _ _)
    rw [hnil]
  | cons p ps ih =>
    intro suf seen hseen hpre
    have hpk : key p ≠ k := hpre p (List.mem_cons_self _ _)
    have hps : ∀ q ∈ ps, key q ≠ k := fun q hq =>
      hpre q (List.mem_cons_of_mem _ hq)
    simp only [List.cons_append, dedupSeen]
    by_cases hs : key p ∈ seen
    · simp only [hs, if_pos]
      exact ih suf seen hseen hps
    · simp only [hs, if_neg, not_false_iff]
      rw [List.filter_cons]
      simp only [beq_iff_eq, hpk, if_neg, ite_false]
      have hseen2 : k ∉ key p :: seen := by
        simp only [List.mem_cons, not_or]
        exact ⟨fun h => hpk h.symm, hseen⟩
      exact ih suf (key p :: seen) hseen2 hps

theorem mem_leftJoin_imp {cs : List Customer} {os : List CleanOrder}
    {p : Customer × Option CleanOrder} (hp : p ∈ sqlLeftJoinRows cs os) :
    p.1 ∈ cs ∧ ∀ o, p.2 = some o →
      o ∈ os ∧ o.mobile_number = p.1.mobile_number := by
  unfold sqlLeftJoinRows at hp
  rcases List.mem_flatten.mp hp with ⟨blk, hblk, hpin⟩
  rcases List.mem_map.mp hblk with ⟨c, hc, rfl⟩
  by_cases hms : (os.filter fun o =>
      o.mobile_number == c.mobile_number).isEmpty
  · simp only [hms, if_pos, List.mem_singleton] at hpin
    subst hpin
    exact ⟨hc, by intro o h; simp at h⟩
  · simp only [hms, if_neg, Bool.not_eq_true, List.mem_map] at hpin
    rcases hpin with ⟨o, ho, rfl⟩
    have ho2 := List.mem_filter.mp ho
    refine ⟨hc, ?_⟩
    intro o' h
    simp only [Option.some.injEq] at h
    subst h
    exact ⟨ho2.1, by simpa using ho2.2⟩

theorem leftJoin_block {cs : List Customer} (os : List CleanOrder)
    {c : Customer} (hc : c ∈ cs) :
    ∃ p ∈ sqlLeftJoinRows cs os, p.1 = c := by
  unfold sqlLeftJoinRows
  by_cases hms : (os.filter fun o =>
      o.mobile_number == c.mobile_number).isEmpty
  · refine ⟨(c, none), ?_, rfl⟩
    apply List.mem_flatten.mpr
    refine ⟨[(c, none)], ?_, List.mem_singleton.mpr rfl⟩
    have := List.mem_map_of_mem (fun c =>
      let ms := os.filter fun o => o.mobile_number == c.mobile_number
      if ms.isEmpty then [(c, none)] else ms.map fun o => (c, some o)) hc
    simpa [hms] using this
  · have hne : (os.filter fun o => o.mobile_number == c.mobile_number) ≠ [] := by
      intro h
      rw [h] at hms
      exact hms rfl
    rcases List.exists_mem_of_ne_nil _ hne with ⟨o, ho⟩
    refine ⟨(c, some o), ?_, rfl⟩
    apply List.mem_flatten.mpr
    refine ⟨(os.filter fun x =>
      x.mobile_number == c.mobile_number).map fun o => (c, some o), ?_, ?_⟩
    · have := List.mem_map_of_mem (fun c =>
        let ms := os.filter fun o => o.mobile_number == c.mobile_number
        if ms.isEmpty then [(c, none)] else ms.map fun o => (c, some o)) hc
      simpa [hms] using this
    · exact List.mem_map_of_mem _ ho

/-! ## Claim C2: regional revenue for regions without orders -/

/-- C2 counterexample: a store with one customer ("North") and no
orders.  Both engines do emit a data row for the region, but the table
engine's `SUM(o.total_amount)` over the all-`NULL` left-join group is
`NULL` (`none`), not 0 — the query has no `COALESCE` — while only the
memory engine fills the aggregate with 0.  This refutes the claim that
both engines emit `total_revenue = 0`. -/
theorem regional_revenue_zero_counterexample :
    (sqlRegionalRevenue [⟨"C1", "Alice", "12345678", "North"⟩] []).map
        SqlRegionalRow.total_revenue = [none] ∧
    (memRegionalRevenue [⟨"C1", "Alice", "12345678", "North"⟩] []).map
        MemRegionalRow.total_revenue = [Money.ofInt 0] ∧
    ([none] : List (Option Money)) ≠ [some (Money.ofInt 0)] := by
  decide

/-- C2 (amended): for every dataset containing a customer whose whole
region has no matching orders, both engines still emit a data row for
that region, with `total_orders = 0`; the memory engine reports
`total_revenue = 0`, while the table engine reports the SQL `NULL`
(`none`).  Both engines order their rows by total revenue descending
(`NULL` sorting last for the table engine). -/
theorem regional_revenue_orderless_region (cs : List Customer)
    (os : List CleanOrder) (c : Customer) (hc : c ∈ cs)
    (hno : ∀ c' ∈ cs, c'.region = c.region →
      ∀ o ∈ os, o.mobile_number ≠ c'.mobile_number) :
    (∃ row ∈ sqlRegionalRevenue cs os,
      row.region = c.region ∧ row.total_orders = 0 ∧
      row.total_revenue = none) ∧
    (∃ row ∈ memRegionalRevenue cs os,
      row.region = c.region ∧ row.total_orders = 0 ∧
      row.total_revenue = Money.ofInt 0) ∧
    List.Sorted (fun a b => sqlRegionalLe a b = true)
      (sqlRegionalRevenue cs os) ∧
    List.Sorted (fun a b => memRegionalLe a b = true)
      (memRegionalRevenue cs os) := by
  have hgroup : ∀ p ∈ sqlLeftJoinRows cs os, p.1.region = c.region →
      p.2 = none := by
    intro p hp hr
    rcases mem_leftJoin_imp hp with ⟨hpc, himp⟩
    cases hp2 : p.2 with
    | none => rfl
    | some o =>
      rcases himp o hp2 with ⟨ho, hmob⟩
      exact absurd hmob (hno p.1 hpc hr o ho)
  have hg : ∀ p ∈ (sqlLeftJoinRows cs os).filter
      (fun p => p.1.region == c.region), p.2 = none := by
    intro p hp
    have h2 := List.mem_filter.mp hp
    exact hgroup p h2.1 (by simpa using h2.2)
  have hA : regionAmounts ((sqlLeftJoinRows cs os).filter
      (fun p => p.1.region == c.region)) = [] := by
    unfold regionAmounts
    rw [List.filterMap_eq_nil_iff]
    intro p hp
    rw [hg p hp]
    rfl
  have hO : (((sqlLeftJoinRows cs os).filter
      (fun p => p.1.region == c.region)).filterMap fun p => p.2) = [] := by
    rw [List.filterMap_eq_nil_iff]
    intro p hp
    exact hg p hp
  have hkey : c.region ∈ dedupSeen (fun k => k) []
      ((sqlLeftJoinRows cs os).map fun p => p.1.region) := by
    apply mem_dedupSeen_id.mpr
    refine ⟨?_, by simp⟩
    rcases leftJoin_block os hc with ⟨p, hp, hpc⟩
    exact List.mem_map.mpr ⟨p, hp, by rw [hpc]⟩
  have hsqlrow : (sqlAggRegion (sqlLeftJoinRows cs os) c.region).region
      = c.region ∧
      (sqlAggRegion (sqlLeftJoinRows cs os) c.region).total_orders = 0 ∧
      (sqlAggRegion (sqlLeftJoinRows cs os) c.region).total_revenue
        = none := by
    simp only [sqlAggRegion, hA, hO]
    simp
  have hmemrow : (memAggRegion (sqlLeftJoinRows cs os) c.region).region
      = c.region ∧
      (memAggRegion (sqlLeftJoinRows cs os) c.region).total_orders = 0 ∧
      (memAggRegion (sqlLeftJoinRows cs os) c.region).total_revenue
        = Money.ofInt 0 := by
    simp only [memAggRegion, hA, hO]
    simp [moneySum]
  refine ⟨?_, ?_, ?_, ?_⟩
  · refine ⟨sqlAggRegion (sqlLeftJoinRows cs os) c.region, ?_, hsqlrow⟩
    unfold sqlRegionalRevenue
    apply (List.perm_insertionSort _ _).mem_iff.mpr
    exact List.mem_map_of_mem _ hkey
  · refine ⟨memAggRegion (sqlLeftJoinRows cs os) c.region, ?_, hmemrow⟩
    unfold memRegionalRevenue
    have hrows : memLeftMergedRows cs os = sqlLeftJoinRows cs os := rfl
    rw [hrows]
    apply (List.perm_insertionSort _ _).mem_iff.mpr
    apply List.mem_map_of_mem
    apply (List.perm_insertionSort _ _).mem_iff.mpr
    exact hkey
  · exact List.sorted_insertionSort _ _
  · exact List.sorted_insertionSort _ _

/-- Witness for the amended C2 at a concrete one-customer, no-order
store. -/
theorem regional_revenue_orderless_region_witness :
    (∃ row ∈ sqlRegionalRevenue [⟨"C1", "Alice", "12345678", "North"⟩] [],
      row.region = (⟨"C1", "Alice", "12345678", "North"⟩ : Customer).region ∧
      row.total_orders = 0 ∧ row.total_revenue = none) ∧
    (∃ row ∈ memRegionalRevenue [⟨"C1", "Alice", "12345678", "North"⟩] [],
      row.region = (⟨"C1", "Alice", "12345678", "North"⟩ : Customer).region ∧
      row.total_orders = 0 ∧ row.total_revenue = Money.ofInt 0) ∧
    List.Sorted (fun a b => sqlRegionalLe a b = true)
      (sqlRegionalRevenue [⟨"C1", "Alice", "12345678", "North"⟩] []) ∧
    List.Sorted (fun a b => memRegionalLe a b = true)
      (memRegionalRevenue [⟨"C1", "Alice", "12345678", "North"⟩] []) :=
  regional_revenue_orderless_region [⟨"C1", "Alice", "12345678", "North"⟩]
    [] ⟨"C1", "Alice", "12345678", "North"⟩ (by decide) (by decide)

/-! ## Claim C3: validation failures abort the batch with all messages -/

theorem filterMap_guard_length {β γ : Type} (l : List β) (c : β → Bool)
    (m : β → γ) :
    (l.filterMap fun a => if c a then none else some (m a)).length
      = (l.filter fun a => !c a).length := by
  induction l with
  | nil => rfl
  | cons a as ih =>
    by_cases h : c a <;>
      simp [List.filterMap_cons, List.filter_cons, h, ih]

theorem mem_filterMap_guard {β γ : Type} {l : List β} {a : β}
    (ha : a ∈ l) (c : β → Bool) (m : β → γ) (hc : c a = false) :
    m a ∈ (l.filterMap fun x => if c x then none else some (m x)) :=
  List.mem_filterMap.mpr ⟨a, ha, by rw [hc]; simp⟩

/-- C3: whenever some row of the parsed input fails field validation,
both pipelines return `success = false` with `records_loaded = 0`, the
store is not written at all, the error list carries exactly one message
per invalid row (all of them — validation is not fail-fast), and each
message is numbered 1-based, additionally offset by one for the CSV
header line (`Row (idx+2)` for 0-based `idx`; `Order (idx+1)` for
XML). -/
theorem ingestion_validation_aborts :
    (∀ (df : List CsvRow) (mode : LoadMode) (tbl : List DbCustomer),
      (∃ r ∈ df, validateCsvRow r ≠ []) →
      (process_csv df mode tbl).1.success = false ∧
      (process_csv df mode tbl).1.records_loaded = 0 ∧
      (process_csv df mode tbl).2 = tbl ∧
      (process_csv df mode tbl).1.errors.length =
        (df.enum.filter fun p => !(validateCsvRow p.2).isEmpty).length ∧
      ∀ p ∈ df.enum, validateCsvRow p.2 ≠ [] →
        ("Row " ++ toString (p.1 + 2) ++ ": " ++
          String.intercalate ", " (validateCsvRow p.2)) ∈
          (process_csv df mode tbl).1.errors) ∧
    (∀ (orders : List RawOrder) (mode : LoadMode) (tbl : List CleanOrder),
      (∃ o ∈ orders, validateOrderRow o ≠ []) →
      (process_xml orders mode tbl).1.success = false ∧
      (process_xml orders mode tbl).1.records_loaded = 0 ∧
      (process_xml orders mode tbl).2 = tbl ∧
      (process_xml orders mode tbl).1.errors.length =
        (orders.enum.filter fun p => !(validateOrderRow p.2).isEmpty).length ∧
      ∀ p ∈ orders.enum, validateOrderRow p.2 ≠ [] →
        ("Order " ++ toString (p.1 + 1) ++ ": " ++
          String.intercalate ", " (validateOrderRow p.2)) ∈
          (process_xml orders mode tbl).1.errors) := by
  constructor
  · intro df mode tbl hinv
    rcases hinv with ⟨r, hr, hrv⟩
    have hdfne : df.isEmpty = false := by
      cases df with
      | nil => exact absurd hr (List.not_mem_nil r)
      | cons a as => rfl
    have hval : validate_dataframe df =
        ((df.enum.filterMap fun p =>
          if (validateCsvRow p.2).isEmpty then none
          else some ("Row " ++ toString (p.1 + 2) ++ ": " ++
            String.intercalate ", " (validateCsvRow p.2))).isEmpty,
         df.enum.filterMap fun p =>
          if (validateCsvRow p.2).isEmpty then none
          else some ("Row " ++ toString (p.1 + 2) ++ ": " ++
            String.intercalate ", " (validateCsvRow p.2))) := by
      unfold validate_dataframe
      rw [hdfne]
      rfl
    have hrenum : ∃ p ∈ df.enum, p.2 = r := by
      have hmem : r ∈ df.enum.map Prod.snd := by
        rw [List.enum_map_snd]; exact hr
      rcases List.mem_map.mp hmem with ⟨p, hp, hp2⟩
      exact ⟨p, hp, hp2⟩
    rcases hrenum with ⟨p, hp, hp2⟩
    have hc : ((validateCsvRow p.2).isEmpty : Bool) = false := by
      rw [List.isEmpty_eq_false, hp2]
      exact hrv
    have hmsg : ("Row " ++ toString (p.1 + 2) ++ ": " ++
        String.intercalate ", " (validateCsvRow p.2)) ∈
        (df.enum.filterMap fun q =>
          if (validateCsvRow q.2).isEmpty then none
          else some ("Row " ++ toString (q.1 + 2) ++ ": " ++
            String.intercalate ", " (validateCsvRow q.2))) :=
      mem_filterMap_guard hp _ _ hc
    have herrsempty : (df.enum.filterMap fun p =>
        if (validateCsvRow p.2).isEmpty then none
        else some ("Row " ++ toString (p.1 + 2) ++ ": " ++
          String.intercalate ", " (validateCsvRow p.2))).isEmpty = false := by
      rw [List.isEmpty_eq_false]
      intro h
      rw [h] at hmsg
      exact List.not_mem_nil _ hmsg
    have hproc : process_csv df mode tbl =
        (⟨false, 0, df.enum.filterMap fun p =>
          if (validateCsvRow p.2).isEmpty then none
          else some ("Row " ++ toString (p.1 + 2) ++ ": " ++
            String.intercalate ", " (validateCsvRow p.2))⟩, tbl) := by
      unfold process_csv
      rw [hval, herrsempty]
      rfl
    rw [hproc]
    refine ⟨rfl, rfl, rfl, ?_, ?_⟩
    · exact filterMap_guard_length df.enum
        (fun p => (validateCsvRow p.2).isEmpty) _
    · intro q hq hqv
      exact mem_filterMap_guard hq _ _
        (List.isEmpty_eq_false.mpr hqv)
  · intro orders mode tbl hinv
    rcases hinv with ⟨r, hr, hrv⟩
    have hone : orders.isEmpty = false := by
      cases orders with
      | nil => exact absurd hr (List.not_mem_nil r)
      | cons a as => rfl
    have hval : validate_orders orders =
        ((orders.enum.filterMap fun p =>
          if (validateOrderRow p.2).isEmpty then none
          else some ("Order " ++ toString (p.1 + 1) ++ ": " ++
            String.intercalate ", " (validateOrderRow p.2))).isEmpty,
         orders.enum.filterMap fun p =>
          if (validateOrderRow p.2).isEmpty then none
          else some ("Order " ++ toString (p.1 + 1) ++ ": " ++
            String.intercalate ", " (validateOrderRow p.2))) := by
      unfold validate_orders
      rw [hone]
      rfl
    have hrenum : ∃ p ∈ orders.enum, p.2 = r := by
      have hmem : r ∈ orders.enum.map Prod.snd := by
        rw [List.enum_map_snd]; exact hr
      rcases List.mem_map.mp hmem with ⟨p, hp, hp2⟩
      exact ⟨p, hp, hp2⟩
    rcases hrenum with ⟨p, hp, hp2⟩
    have hc : ((validateOrderRow p.2).isEmpty : Bool) = false := by
      rw [List.isEmpty_eq_false, hp2]
      exact hrv
    have hmsg : ("Order " ++ toString (p.1 + 1) ++ ": " ++
        String.intercalate ", " (validateOrderRow p.2)) ∈
        (orders.enum.filterMap fun q =>
          if (validateOrderRow q.2).isEmpty then none
          else some ("Order " ++ toString (q.1 + 1) ++ ": " ++
            String.intercalate ", " (validateOrderRow q.2))) :=
      mem_filterMap_guard hp _ _ hc
    have herrsempty : (orders.enum.filterMap fun p =>
        if (validateOrderRow p.2).isEmpty then none
        else some ("Order " ++ toString (p.1 + 1) ++ ": " ++
          String.intercalate ", " (validateOrderRow p.2))).isEmpty
          = false := by
      rw [List.isEmpty_eq_false]
      intro h
      rw [h] at hmsg
      exact List.not_mem_nil _ hmsg
    have hproc : process_xml orders mode tbl =
        (⟨false, 0, orders.enum.filterMap fun p =>
          if (validateOrderRow p.2).isEmpty then none
          else some ("Order " ++ toString (p.1 + 1) ++ ": " ++
            String.intercalate ", " (validateOrderRow p.2))⟩, tbl) := by
      unfold process_xml
      rw [hval, herrsempty]
      rfl
    rw [hproc]
    refine ⟨rfl, rfl, rfl, ?_, ?_⟩
    · exact filterMap_guard_length orders.enum
        (fun p => (validateOrderRow p.2).isEmpty) _
    · intro q hq hqv
      exact mem_filterMap_guard hq _ _
        (List.isEmpty_eq_false.mpr hqv)

/-- Witness for C3 on a two-row CSV batch (one invalid row) and a
one-order XML batch (invalid date). -/
theorem ingestion_validation_aborts_witness :
    (process_csv [⟨.vStr "A", .vStr "Alice", .vStr "12345678", .vStr "North"⟩,
        ⟨.vStr "B", .vStr "Bob", .vStr "123", .vStr "South"⟩] .replace
        []).1.success = false ∧
    (process_csv [⟨.vStr "A", .vStr "Alice", .vStr "12345678", .vStr "North"⟩,
        ⟨.vStr "B", .vStr "Bob", .vStr "123", .vStr "South"⟩] .replace
        []).2 = [] ∧
    (process_xml [⟨.vStr "O1", .vStr "12345678", .vStr "nope",
        .vStr "S", .vStr "1", .vStr "2.5"⟩] .append []).1.success = false := by
  have h1 := (ingestion_validation_aborts.1
    [⟨.vStr "A", .vStr "Alice", .vStr "12345678", .vStr "North"⟩,
     ⟨.vStr "B", .vStr "Bob", .vStr "123", .vStr "South"⟩] .replace []
    ⟨⟨.vStr "B", .vStr "Bob", .vStr "123", .vStr "South"⟩, by decide, by decide⟩)
  have h2 := (ingestion_validation_aborts.2
    [⟨.vStr "O1", .vStr "12345678", .vStr "nope", .vStr "S", .vStr "1",
      .vStr "2.5"⟩] .append []
    ⟨⟨.vStr "O1", .vStr "12345678", .vStr "nope", .vStr "S", .vStr "1",
      .vStr "2.5"⟩, by decide, by decide⟩)
  exact ⟨h1.1, h1.2.2.1, h2.1⟩

/-! ## Claim C4: mobile number normalization -/

theorem filter_dropWhile {α : Type} {p q : α → Bool}
    (h : ∀ a, q a = true → p a = false) :
    ∀ l : List α, (l.dropWhile q).filter p = l.filter p := by
  intro l
  induction l with
  | nil => rfl
  | cons a as ih =>
    by_cases hq : q a
    · rw [List.dropWhile_cons_of_pos hq, ih, List.filter_cons,
        if_neg (by rw [h a hq]; simp)]
    · rw [List.dropWhile_cons_of_neg hq]

theorem filter_pyStripList {p : Char → Bool}
    (h : ∀ c, c.isWhitespace = true → p c = false) (l : List Char) :
    (pyStripList l).filter p = l.filter p := by
  unfold pyStripList
  rw [List.filter_reverse, filter_dropWhile h, List.filter_reverse,
    List.reverse_reverse, filter_dropWhile h]

theorem whitespace_not_kept (c : Char) (hc : c.isWhitespace = true) :
    keepMobileChar c = false := by
  simp only [Char.isWhitespace, Bool.or_eq_true, decide_eq_true_eq] at hc
  rcases hc with ((h | h) | h) | h <;> subst h <;> decide

theorem whitespace_not_digit (c : Char) (hc : c.isWhitespace = true) :
    c.isDigit = false := by
  simp only [Char.isWhitespace, Bool.or_eq_true, decide_eq_true_eq] at hc
  rcases hc with ((h | h) | h) | h <;> subst h <;> decide

/-- The filter of `normalize_mobile_number` keeps every digit, so the
digit count after cleaning is the input's digit count. -/
theorem filter_keep_digits (l : List Char) :
    (l.filter keepMobileChar).filter Char.isDigit = l.filter Char.isDigit := by
  rw [List.filter_filter]
  apply List.filter_congr
  intro a _
  by_cases hd : a.isDigit
  · simp [keepMobileChar, hd]
  · simp [hd]

/-- Closed form of `normalize_mobile_number`: fail exactly when the
input has fewer than 8 digits, otherwise return the input restricted to
digits and `+` signs. -/
theorem normalize_mobile_spec (s : String) :
    normalize_mobile_number s =
      if (s.toList.filter Char.isDigit).length < 8 then none
      else some (s.toList.filter keepMobileChar).asString := by
  by_cases hs : s = ""
  · subst hs
    decide
  · have hclean : (pyStrip s).toList.filter keepMobileChar
        = s.toList.filter keepMobileChar := by
      rw [show (pyStrip s).toList = pyStripList s.toList from rfl,
        filter_pyStripList whitespace_not_kept]
    unfold normalize_mobile_number
    rw [if_neg (by simpa using hs), hclean, filter_keep_digits]
    by_cases hA : (s.toList.filter keepMobileChar).isEmpty
    · have hnil : s.toList.filter keepMobileChar = [] :=
        List.isEmpty_iff.mp hA
      have hd : s.toList.filter Char.isDigit = [] := by
        rw [← filter_keep_digits, hnil]
        rfl
      rw [if_pos hA, hd]
      simp
    · rw [if_neg hA]

/-- C4 counterexample: the claim says the cleaned string keeps digits
and at most a leading `+`, but the regex `[^\d+]` keeps every `+`: on
`"12+345678"` the code returns the string unchanged, with a `+` in a
non-leading position. -/
theorem normalize_mobile_plus_counterexample :
    normalize_mobile_number "12+345678" = some "12+345678" ∧
    (("12+345678" : String).toList.drop 1).contains '+' = true := by
  decide

/-- C4 (amended): `normalize_mobile_number` strips every character that
is neither a digit nor `+` (every `+` survives, wherever it occurs, not
only a leading one), returns null exactly when the input has fewer than
8 digits (no upper bound is enforced), and on success returns the
stripped input; in particular `"12345"` fails, `"+91 98765 43210"`
becomes `"+919876543210"`, and an interior `+` as in `"12+345678"` is
preserved. -/
theorem normalize_mobile_amended :
    (∀ s : String, normalize_mobile_number s = none ↔
      (s.toList.filter Char.isDigit).length < 8) ∧
    (∀ s r, normalize_mobile_number s = some r →
      r.toList = s.toList.filter keepMobileChar) ∧
    normalize_mobile_number "12345" = none ∧
    normalize_mobile_number "+91 98765 43210" = some "+919876543210" ∧
    normalize_mobile_number "12+345678" = some "12+345678" := by
  refine ⟨?_, ?_, by decide, by decide, by decide⟩
  · intro s
    rw [normalize_mobile_spec]
    split_ifs with h
    · exact iff_of_true rfl h
    · exact iff_of_false (by simp) h
  · intro s r h
    rw [normalize_mobile_spec] at h
    split_ifs at h
    simp only [Option.some.injEq] at h
    subst h
    rfl

/-- Witness for the amended C4: the success-shape conjunct applied at
`"+91 98765 43210"`. -/
theorem normalize_mobile_amended_witness :
    ("+919876543210" : String).toList =
      ("+91 98765 43210" : String).toList.filter keepMobileChar :=
  normalize_mobile_amended.2.1 "+91 98765 43210" "+919876543210" (by decide)

/-! ## Claim C5: datetime parsing priority -/

/-- C5: with no explicit format, `validate_datetime` tries exactly
ISO-with-seconds, `'%Y-%m-%d %H:%M:%S'`, `'%Y-%m-%d'`, `'%d-%m-%Y'`,
`'%d/%m/%Y'` in that order and returns the first match, null when none
match: `"2024-03-15"` parses to 2024-03-15 00:00:00, `"15/03/2024"`
parses to the same instant through the `%d/%m/%Y` branch (every earlier
format fails on it), `"not-a-date"` yields null; in general a parse
succeeds only through one of the five formats, failure of all five
yields null, a first-format success is returned directly, and when the
first four formats fail the `%d/%m/%Y` result is returned. -/
theorem validate_datetime_priority :
    validate_datetime (.vStr "2024-03-15") none = some ⟨2024, 3, 15, 0, 0, 0⟩ ∧
    validate_datetime (.vStr "15/03/2024") none = some ⟨2024, 3, 15, 0, 0, 0⟩ ∧
    strptime "15/03/2024" fmtDmySlash = some ⟨2024, 3, 15, 0, 0, 0⟩ ∧
    (∀ f ∈ [fmtIsoT, fmtIsoSpace, fmtYmd, fmtDmyDash],
      strptime "15/03/2024" f = none) ∧
    validate_datetime (.vStr "not-a-date") none = none ∧
    (∀ s d, validate_datetime (.vStr s) none = some d →
      ∃ f ∈ pyDateFormats, strptime (pyStrip s) f = some d) ∧
    (∀ s, (∀ f ∈ pyDateFormats, strptime (pyStrip s) f = none) →
      validate_datetime (.vStr s) none = none) ∧
    (∀ s d, strptime (pyStrip s) fmtIsoT = some d →
      validate_datetime (.vStr s) none = some d) ∧
    (∀ s d, strptime (pyStrip s) fmtIsoT = none →
      strptime (pyStrip s) fmtIsoSpace = none →
      strptime (pyStrip s) fmtYmd = none →
      strptime (pyStrip s) fmtDmyDash = none →
      strptime (pyStrip s) fmtDmySlash = some d →
      validate_datetime (.vStr s) none = some d) := by
  refine ⟨by decide, by decide, by decide, by decide, by decide,
    ?_, ?_, ?_, ?_⟩
  · intro s d h
    unfold validate_datetime at h
    by_cases hs : s = ""
    · subst hs
      simp [pyTruthy] at h
    · rw [if_neg (by simp [pyTruthy, hs])] at h
      exact List.exists_of_findSome?_eq_some h
  · intro s hall
    unfold validate_datetime
    by_cases hs : s = ""
    · subst hs
      simp [pyTruthy]
    · rw [if_neg (by simp [pyTruthy, hs])]
      exact List.findSome?_eq_none_iff.mpr hall
  · intro s d h1
    have hs : s ≠ "" := by
      intro hs
      subst hs
      rw [show strptime (pyStrip "") fmtIsoT = none from by decide] at h1
      exact Option.noConfusion h1
    unfold validate_datetime
    rw [if_neg (by simp [pyTruthy, hs])]
    simp only [pyDateFormats, List.findSome?_cons]
    rw [show pyStr (.vStr s) = s from rfl, h1]
  · intro s d h1 h2 h3 h4 h5
    have hs : s ≠ "" := by
      intro hs
      subst hs
      rw [show strptime (pyStrip "") fmtDmySlash = none from by decide] at h5
      exact Option.noConfusion h5
    unfold validate_datetime
    rw [if_neg (by simp [pyTruthy, hs])]
    simp only [pyDateFormats, List.findSome?_cons]
    rw [show pyStr (.vStr s) = s from rfl, h1, h2, h3, h4, h5]

/-- Witness for C5: the date `"15/03/2024"` really is produced by the
`%d/%m/%Y` branch after the four earlier formats fail. -/
theorem validate_datetime_priority_witness :
    validate_datetime (.vStr "15/03/2024") none
      = some ⟨2024, 3, 15, 0, 0, 0⟩ :=
  (validate_datetime_priority.2.2.2.2.2.2.2.2) "15/03/2024"
    ⟨2024, 3, 15, 0, 0, 0⟩ (by decide) (by decide) (by decide) (by decide)
    (by decide)

/-! ## Claim C6: replace-mode ingestion is idempotent -/

/-- C6: for a file that passes validation, running
`process_csv(mode='replace')` twice leaves the customers table with the
same row count after each run: replace mode deletes every existing row
first, so the resulting table depends only on the file's cleaned rows
(the two stores are in fact identical). -/
theorem replace_mode_idempotent (df : List CsvRow) (tbl : List DbCustomer)
    (hv : (validate_dataframe df).1 = true) :
    ((process_csv df .replace (process_csv df .replace tbl).2).2).length
      = ((process_csv df .replace tbl).2).length := by
  have hrun : ∀ t : List DbCustomer, (process_csv df .replace t).2
      = ((clean_dataframe df).map fun r =>
          (⟨pyStr r.customer_id, r.customer_name, r.mobile_number,
            r.region⟩ : DbCustomer)).foldl upsertCustomer [] := by
    intro t
    unfold process_csv
    rw [hv]
    rfl
  rw [hrun, hrun]

/-- Witness for C6: a one-row valid file over a non-empty pre-existing
table. -/
theorem replace_mode_idempotent_witness :
    ((process_csv [⟨.vStr "A", .vStr "Alice", .vStr "12345678",
        .vStr "North"⟩] .replace
      (process_csv [⟨.vStr "A", .vStr "Alice", .vStr "12345678",
        .vStr "North"⟩] .replace
        [⟨"Z", .vStr "Old", .vStr "99999999", .vStr "West"⟩]).2).2).length
    = ((process_csv [⟨.vStr "A", .vStr "Alice", .vStr "12345678",
        .vStr "North"⟩] .replace
        [⟨"Z", .vStr "Old", .vStr "99999999", .vStr "West"⟩]).2).length :=
  replace_mode_idempotent
    [⟨.vStr "A", .vStr "Alice", .vStr "12345678", .vStr "North"⟩]
    [⟨"Z", .vStr "Old", .vStr "99999999", .vStr "West"⟩] (by decide)

/-! ## Claim C7: the two engines' envelope field names -/

/-- C7 counterexample: on the same (empty) dataset, the table engine's
repeat-customers envelope and the memory engine's differ in field
names: only the memory envelope has `method` and a nested `metadata`
mapping, and only the table envelope has `description` (its metadata
scalars are spliced in at top level by `result.update(metadata)`). -/
theorem envelope_shape_counterexample :
    ("method" ∈ (memRepeatEnvelope [] [] "T").map Prod.fst) ∧
    ("method" ∉ (tableRepeatEnvelope [] [] "T").map Prod.fst) ∧
    ("description" ∈ (tableRepeatEnvelope [] [] "T").map Prod.fst) ∧
    ("description" ∉ (memRepeatEnvelope [] [] "T").map Prod.fst) ∧
    ("metadata" ∈ (memRepeatEnvelope [] [] "T").map Prod.fst) ∧
    ("metadata" ∉ (tableRepeatEnvelope [] [] "T").map Prod.fst) := by
  decide

/-- C7 (amended): for every dataset, the table engine's
repeat-customers envelope carries exactly the fields `kpi_name`,
`description`, `data`, `calculated_at`, `success` plus the three
metadata scalars spliced in at top level (no `method` tag, no nested
`metadata`), while the memory engine's carries exactly `kpi_name`,
`data`, `metadata`, `calculated_at`, `success`, `method` (no
`description`); the `data` rows themselves agree as multisets. -/
theorem envelope_shape_amended (cs : List Customer) (os : List CleanOrder)
    (now : String) :
    (tableRepeatEnvelope cs os now).map Prod.fst =
      ["kpi_name", "description", "data", "calculated_at", "success",
       "total_repeat_customers", "total_orders", "total_revenue"] ∧
    (memRepeatEnvelope cs os now).map Prod.fst =
      ["kpi_name", "data", "metadata", "calculated_at", "success",
       "method"] ∧
    (sqlRepeatCustomers cs os).Perm (memRepeatCustomers cs os) :=
  ⟨rfl, rfl, repeatCustomers_perm cs os⟩

/-! ## Claim C8: one KPI's failure does not abort the others -/

theorem calculate_all_lookup (oc : String → KpiOutcome) (now : String) :
    ∀ k ∈ kpiNames, (calculate_all_kpis oc now).lookup k
      = some (calcOneKpi k (oc k) now) := by
  intro k hk
  have h4 : k = "repeat_customers" ∨ k = "monthly_trends" ∨
      k = "regional_revenue" ∨ k = "top_customers" := by
    simpa [kpiNames] using hk
  rcases h4 with rfl | rfl | rfl | rfl <;> rfl

/-- C8: in `calculate_all_kpis`, a KPI whose store computation raises
(modelled as an `error` outcome) yields the error envelope of
`_format_error` under its own key, while every KPI whose computation
succeeds still yields its normal success envelope — one failure never
aborts the remaining KPIs. -/
theorem kpi_failure_isolated (oc : String → KpiOutcome) (now k e : String)
    (hk : k ∈ kpiNames) (he : oc k = .error e) :
    (calculate_all_kpis oc now).lookup k
      = some (tableFormatError (kpiTitle k).1 (kpiTitle k).2 e now) ∧
    ∀ j ∈ kpiNames, j ≠ k → ∀ d md, oc j = .ok (d, md) →
      (calculate_all_kpis oc now).lookup j
        = some (tableFormatResult (kpiTitle j).1 (kpiTitle j).2 d md now) := by
  constructor
  · rw [calculate_all_lookup oc now k hk, he]
    rfl
  · intro j hj _ d md hok
    rw [calculate_all_lookup oc now j hj, hok]
    rfl

/-- A store interaction in which only the monthly-trends query raises. -/
def failingOutcome : String → KpiOutcome := fun name =>
  if name == "monthly_trends" then .error "boom" else .ok (.jnull, [])

/-- Witness for C8: with only `monthly_trends` raising, its envelope is
the error one and `regional_revenue` still succeeds. -/
theorem kpi_failure_isolated_witness :
    (calculate_all_kpis failingOutcome "T").lookup "monthly_trends"
      = some (tableFormatError (kpiTitle "monthly_trends").1
          (kpiTitle "monthly_trends").2 "boom" "T") ∧
    (calculate_all_kpis failingOutcome "T").lookup "regional_revenue"
      = some (tableFormatResult (kpiTitle "regional_revenue").1
          (kpiTitle "regional_revenue").2 .jnull [] "T") :=
  ⟨(kpi_failure_isolated failingOutcome "T" "monthly_trends" "boom"
      (by decide) rfl).1,
   (kpi_failure_isolated failingOutcome "T" "monthly_trends" "boom"
      (by decide) rfl).2 "regional_revenue" (by decide) (by decide)
      .jnull [] rfl⟩

/-! ## Claim C10: unknown KPI names are rejected with an error envelope -/

/-- C10: for any name outside the four registered keys, `calculate_kpi`
returns a plain `{success: false, error: ...}` dictionary whose message
names the unknown KPI and lists the available keys, without consulting
the store at all (the result is independent of the store outcome and of
the calculation time). -/
theorem unknown_kpi_rejected (name : String) (oc ocb : String → KpiOutcome)
    (now nowb : String) (h : name ∉ kpiNames) :
    calculate_kpi name oc now =
      [("success", .jbool false),
       ("error", .jstr ("Unknown KPI: " ++ name ++ ". Available: " ++
         "[\x27repeat_customers\x27, \x27monthly_trends\x27, \x27regional_revenue\x27, \x27top_customers\x27]"))] ∧
    calculate_kpi name oc now = calculate_kpi name ocb nowb := by
  unfold calculate_kpi
  rw [if_neg h]
  constructor
  · rw [show pyListRepr kpiNames =
      "[\x27repeat_customers\x27, \x27monthly_trends\x27, \x27regional_revenue\x27, \x27top_customers\x27]"
      from rfl]
  · rw [if_neg h]

/-- Witness for C10 at the unknown name `"foo"`. -/
theorem unknown_kpi_rejected_witness :
    calculate_kpi "foo" (fun _ => .ok (.jnull, [])) "T" =
      [("success", .jbool false),
       ("error", .jstr ("Unknown KPI: " ++ "foo" ++ ". Available: " ++
         "[\x27repeat_customers\x27, \x27monthly_trends\x27, \x27regional_revenue\x27, \x27top_customers\x27]"))] ∧
    calculate_kpi "foo" (fun _ => .ok (.jnull, [])) "T" =
      calculate_kpi "foo" (fun _ => .error "x") "U" :=
  unknown_kpi_rejected "foo" (fun _ => .ok (.jnull, []))
    (fun _ => .error "x") "T" "U" (by decide)

/-! ## Claim C9: order of de-duplication and null-dropping in cleaning -/

/-- C9 counterexample: a two-row CSV batch that passes validation (a
missing `customer_name` stringifies to "nan" and satisfies
`validate_string`), whose first row has the missing name and whose
second row is fully valid with the same `customer_id`.  The claimed
order (drop nulls, then de-duplicate) would keep the second row; the
code de-duplicates first — keeping the null first occurrence — and then
drops it, so the cleaned frame is empty and the key is lost entirely. -/
theorem clean_stage_order_counterexample :
    validate_dataframe
      [⟨.vStr "A", .vNan, .vStr "12345678", .vStr "North"⟩,
       ⟨.vStr "A", .vStr "Alice", .vStr "12345678", .vStr "North"⟩]
      = (true, []) ∧
    clean_dataframe
      [⟨.vStr "A", .vNan, .vStr "12345678", .vStr "North"⟩,
       ⟨.vStr "A", .vStr "Alice", .vStr "12345678", .vStr "North"⟩]
      = [] := by
  decide

/-- C9 (amended): the CSV cleaner de-duplicates by `customer_id` first
and drops null rows only afterwards, so when the first occurrence of a
key has a missing required field after normalization, every occurrence
of that key is lost (first conjunct); the XML order cleaner, by
contrast, drops invalid rows before de-duplicating, so there the first
validly-cleaning occurrence of an `order_id` is kept even when earlier
occurrences of the same id were invalid (second conjunct). -/
theorem clean_stage_order_amended :
    (∀ (df pre suf : List CsvRow) (r : CsvRow),
      normalizeStage df = pre ++ r :: suf →
      (∀ p ∈ pre, p.customer_id ≠ r.customer_id) →
      (isMissing r.customer_name = true ∨ isMissing r.mobile_number = true ∨
        isMissing r.region = true) →
      ∀ x ∈ clean_dataframe df, x.customer_id ≠ r.customer_id) ∧
    (∀ (orders pre suf : List RawOrder) (r2 : RawOrder) (c2 : CleanOrder),
      orders = pre ++ r2 :: suf →
      cleanOrder r2 = some c2 →
      (∀ p ∈ pre, ∀ cp, cleanOrder p = some cp →
        cp.order_id ≠ c2.order_id) →
      c2 ∈ clean_orders orders) := by
  constructor
  · intro df pre suf r hsplit hpre hnull x hx heq
    unfold clean_dataframe at hx
    rw [hsplit] at hx
    have hfk := dedupSeen_filter_key (fun q => q.customer_id)
      r.customer_id r rfl pre suf [] (by simp) hpre
    have hx2 := List.mem_filter.mp hx
    have hxin : x ∈ (dedupSeen (fun q => q.customer_id) []
        (pre ++ r :: suf)).filter (fun q => q.customer_id == r.customer_id) :=
      List.mem_filter.mpr ⟨hx2.1, by simp [heq]⟩
    rw [hfk] at hxin
    have hxr : x = r := List.mem_singleton.mp hxin
    subst hxr
    have hclean := hx2.2
    simp only [Bool.and_eq_true, Bool.not_eq_true'] at hclean
    rcases hnull with h | h | h
    · rw [hclean.1.1.2] at h
      exact Bool.noConfusion h
    · rw [hclean.1.2] at h
      exact Bool.noConfusion h
    · rw [hclean.2] at h
      exact Bool.noConfusion h
  · intro orders pre suf r2 c2 horders hc2 hpre
    unfold clean_orders
    rw [horders, List.filterMap_append]
    have hcons : List.filterMap cleanOrder (r2 :: suf)
        = c2 :: List.filterMap cleanOrder suf := by
      rw [List.filterMap_cons, hc2]
    rw [hcons]
    have hpre2 : ∀ p ∈ List.filterMap cleanOrder pre,
        p.order_id ≠ c2.order_id := by
      intro p hp
      rcases List.mem_filterMap.mp hp with ⟨a, ha, hfa⟩
      exact hpre a ha p hfa
    have hfk := dedupSeen_filter_key (fun q => q.order_id)
      c2.order_id c2 rfl (List.filterMap cleanOrder pre)
      (List.filterMap cleanOrder suf) [] (by simp) hpre2
    have : c2 ∈ (dedupSeen (fun q => q.order_id) []
        (List.filterMap cleanOrder pre ++ c2 ::
          List.filterMap cleanOrder suf)).filter
        (fun q => q.order_id == c2.order_id) := by
      rw [hfk]
      exact List.mem_singleton.mpr rfl
    exact List.mem_of_mem_filter this

/-- Witness for the amended C9: an invalid first occurrence of order id
"O1" (unparseable date) does not block the later valid occurrence from
being kept by the XML cleaner. -/
theorem clean_stage_order_amended_witness :
    (⟨"O1", "12345678", ⟨2024, 3, 15, 0, 0, 0⟩, "S", 1, Money.ofInt 7⟩ :
      CleanOrder) ∈ clean_orders
      [⟨.vStr "O1", .vStr "12345678", .vStr "bad", .vStr "S", .vStr "1",
        .vStr "7"⟩,
       ⟨.vStr "O1", .vStr "12345678", .vStr "2024-03-15", .vStr "S",
        .vStr "1", .vStr "7"⟩] :=
  clean_stage_order_amended.2
    [⟨.vStr "O1", .vStr "12345678", .vStr "bad", .vStr "S", .vStr "1",
      .vStr "7"⟩,
     ⟨.vStr "O1", .vStr "12345678", .vStr "2024-03-15", .vStr "S",
      .vStr "1", .vStr "7"⟩]
    [⟨.vStr "O1", .vStr "12345678", .vStr "bad", .vStr "S", .vStr "1",
      .vStr "7"⟩]
    []
    ⟨.vStr "O1", .vStr "12345678", .vStr "2024-03-15", .vStr "S",
      .vStr "1", .vStr "7"⟩
    ⟨"O1", "12345678", ⟨2024, 3, 15, 0, 0, 0⟩, "S", 1, Money.ofInt 7⟩
    rfl (by decide)
    (by
      intro p hp cp hcp
      have hp1 : p = ⟨.vStr "O1", .vStr "12345678", .vStr "bad", .vStr "S",
          .vStr "1", .vStr "7"⟩ := List.mem_singleton.mp hp
      subst hp1
      rw [show cleanOrder ⟨.vStr "O1", .vStr "12345678", .vStr "bad",
        .vStr "S", .vStr "1", .vStr "7"⟩ = none from by decide] at hcp
      exact Option.noConfusion hcp)

end Akasa
